import Mathlib

/-!
Verification development for the goqu-linq data-access layer (package core).

The Go sources are shallowly embedded: each Lean definition below is a direct
translation of one function of the repository (core/queryable.go,
core/repository.go, core/group.go, core/uow code in repository.go), with the
external collaborators (the goqu expression renderer, the sqlx database
handle) modelled at the narrow contract the core uses.  Machine integers of
the source are nonnegative at every modelled call site and are embedded as
Nat; fallible calls return Except or Option; the transaction code is embedded
as a function from the outcomes of the underlying driver calls to the event
trace and the returned value.
-/

namespace GoquLinq

/-- Errors of the embedded core.  Constructors mirror how the Go code builds
errors: base driver errors, the begin-failure wrap of UnitOfWork.Begin
(fmt.Errorf with the begin error), and the double wrap RunInTransaction
builds when rollback itself fails (fmt.Errorf holding the original error and
the rollback error). errNoRows stands for database/sql ErrNoRows, scanNull
for the sqlx scan failure converting an SQL NULL into float64. -/
inductive GoErr where
  | mk (tag : String)
  | errNoRows
  | scanNull
  | beginWrap (e : GoErr)
  | rollbackFailWrap (orig : GoErr) (rollbackErr : GoErr)
deriving DecidableEq, Repr

/-! ## Batch mutation engine: safe batch size (repository.go) -/

/-- Translation of calculateSafeBatchSize: safeMaxParams := maxParams * 80 / 100;
return safeMaxParams / fieldCount.  Both divisions are Go integer divisions on
nonnegative values, embedded as Nat floor division. -/
def calculateSafeBatchSize (fieldCount maxParams : Nat) : Nat :=
  maxParams * 80 / 100 / fieldCount

/-- Translation of the clamp in BatchInsert and BatchUpdate:
if opt.BatchSize is greater than the safe size, it is replaced by the safe size. -/
def effectiveBatchSize (configured safeSize : Nat) : Nat :=
  if configured > safeSize then safeSize else configured

/-- The safe-size formula exactly as the specification words it:
floor of (paramBudget times 0.8) divided by fieldsPerRow, that is the Nat
floor of 8 * budget / (10 * fields). -/
def specSafeBatchSize (fieldCount maxParams : Nat) : Nat :=
  maxParams * 8 / (10 * fieldCount)

/-! ## Unit of Work (repository.go): RunInTransaction -/

/-- Outcomes of the three underlying driver calls a transaction scenario can
make: none means the call succeeds, some e that it fails with e. -/
structure TxEnv where
  beginErr : Option GoErr
  rollbackErr : Option GoErr
  commitErr : Option GoErr
deriving DecidableEq, Repr

/-- What the callback fn passed to RunInTransaction does: return nil, return
an error, or raise a panic carrying a message. -/
inductive FnBehavior where
  | ret (e : Option GoErr)
  | panics (msg : String)
deriving DecidableEq, Repr

/-- Observable transaction events, in the order the Go code performs them:
beganTx when db.Begin succeeded, rolledBack when tx.Rollback was invoked,
committed when tx.Commit was invoked. -/
inductive TxEvent where
  | beganTx
  | rolledBack
  | committed
deriving DecidableEq, Repr

/-- What RunInTransaction does for its caller: return (with nil or an error),
or let a panic propagate after the deferred recovery re-raises it. -/
inductive TxOutcome where
  | ret (e : Option GoErr)
  | panicked (msg : String)
deriving DecidableEq, Repr

/-- Translation of UnitOfWork.RunInTransaction.  u.Begin wraps a driver
failure (beginWrap) and aborts.  After a successful begin the deferred
recover handler is armed: a panic in fn triggers Rollback and then re-raises
the panic.  If fn returns an error, Rollback runs; when Rollback itself
fails the two errors are wrapped together (rollbackFailWrap), otherwise the
original error is returned.  If fn returns nil, the result of Commit is
returned.  The first component is the trace of driver events, in order. -/
def RunInTransaction (env : TxEnv) (fn : FnBehavior) : List TxEvent × TxOutcome :=
  match env.beginErr with
  | some e => ([], .ret (some (.beginWrap e)))
  | none =>
    match fn with
    | .panics p => ([.beganTx, .rolledBack], .panicked p)
    | .ret (some e) =>
      match env.rollbackErr with
      | some re => ([.beganTx, .rolledBack], .ret (some (.rollbackFailWrap e re)))
      | none => ([.beganTx, .rolledBack], .ret (some e))
    | .ret none => ([.beganTx, .committed], .ret env.commitErr)

/-! ## Query Builder state (queryable.go)

The goqu SelectDataset owned by a Queryable is embedded as an explicit
accumulating state; the dialect renderer is embedded as a deterministic
function from that state to the parameterized statement, at the narrow
contract the core relies on.  goqu v9.19.0 (pinned in go.mod) renders a
dataset with no projection as SELECT * FROM, never with an empty column
position, which matters for the marker check in ensureSelectFields.
Strings are embedded as List Char so that substring reasoning stays
structural. -/

inductive JoinKind where
  | left
  | right
  | inner
deriving DecidableEq, Repr

structure JoinClause where
  kind : JoinKind
  table : List Char
  onPairs : List (List Char × List Char)
deriving DecidableEq, Repr

structure OrderClause where
  col : List Char
  desc : Bool
deriving DecidableEq, Repr

structure QueryState where
  table : List Char
  selectCols : Option (List (List Char))
  whereFragments : List (List Char × List Int)
  orderCols : List OrderClause
  joins : List JoinClause
  offset : Option Nat
  limit : Option Nat
deriving DecidableEq, Repr

/-- Boolean test that p occurs at the head of l. -/
def leadsWith : List Char → List Char → Bool
  | [], _ => true
  | _ :: _, [] => false
  | a :: ps, b :: ls => a = b && leadsWith ps ls

/-- Boolean test that p occurs contiguously anywhere in l: the embedding of
strings.Contains for a nonempty pattern. -/
def containsSeq (p : List Char) : List Char → Bool
  | [] => leadsWith p []
  | b :: ls => leadsWith p (b :: ls) || containsSeq p ls

def commaJoin : List (List Char) → List Char
  | [] => []
  | [c] => c
  | c :: rest => c ++ ", ".toList ++ commaJoin rest

def renderJoinKind : JoinKind → List Char
  | .left => "LEFT JOIN ".toList
  | .right => "RIGHT JOIN ".toList
  | .inner => "INNER JOIN ".toList

/-- One ON equality pair, local column = joined-table column, as goqu renders
the goqu.Ex built by the join helpers. -/
def renderOnPairs : List (List Char × List Char) → List Char
  | [] => []
  | [(s, d)] => s ++ " = ".toList ++ d
  | (s, d) :: rest => s ++ " = ".toList ++ d ++ " AND ".toList ++ renderOnPairs rest

def renderJoin (j : JoinClause) : List Char :=
  renderJoinKind j.kind ++ j.table ++ " ON ".toList ++ renderOnPairs j.onPairs

def renderJoins : List JoinClause → List Char
  | [] => []
  | j :: rest => " ".toList ++ renderJoin j ++ renderJoins rest

def renderConds : List (List Char × List Int) → List Char × List Int
  | [] => ([], [])
  | [(c, a)] => (c, a)
  | (c, a) :: rest =>
    let r := renderConds rest
    (c ++ " AND ".toList ++ r.1, a ++ r.2)

def renderWheres : List (List Char × List Int) → List Char × List Int
  | [] => ([], [])
  | w :: ws =>
    let r := renderConds (w :: ws)
    (" WHERE ".toList ++ r.1, r.2)

def renderOrderCols : List OrderClause → List Char
  | [] => []
  | o :: rest =>
    " ORDER BY ".toList ++ o.col ++ (if o.desc then " DESC".toList else " ASC".toList)
      ++ renderOrderCols rest

def natChars (n : Nat) : List Char := (toString n).toList

def renderTail (offset limit : Option Nat) : List Char :=
  (match limit with
   | none => []
   | some n => " LIMIT ".toList ++ natChars n)
  ++ (match offset with
      | none => []
      | some n => " OFFSET ".toList ++ natChars n)

/-- The SELECT clause through the FROM keyword, as goqu v9.19.0 renders it:
with no projection set the dataset renders SELECT * FROM (a star, one space
on each side), with an explicit projection the comma-joined columns. -/
def selectFragment : Option (List (List Char)) → List Char
  | none => "SELECT ".toList ++ "*".toList ++ " FROM ".toList
  | some cols => "SELECT ".toList ++ commaJoin cols ++ " FROM ".toList

/-- The embedded dialect renderer: query state to (sql, args), deterministic
and side-effect free. -/
def renderQ (q : QueryState) : List Char × List Int :=
  (selectFragment q.selectCols ++
     (q.table ++
       (renderJoins q.joins ++
         ((renderWheres q.whereFragments).1 ++
           (renderOrderCols q.orderCols ++ renderTail q.offset q.limit)))),
   (renderWheres q.whereFragments).2)

/-- Translation of Queryable.Skip: sets the OFFSET of the dataset in place. -/
def Skip (q : QueryState) (offset : Nat) : QueryState := { q with offset := some offset }

/-- Translation of Queryable.Take: sets the LIMIT of the dataset in place. -/
def Take (q : QueryState) (limit : Nat) : QueryState := { q with limit := some limit }

/-- Translation of Queryable.Limit: same effect as Take. -/
def Limit (q : QueryState) (limit : Nat) : QueryState := { q with limit := some limit }

/-- Translation of Queryable.Select: replaces the projection. -/
def Select (q : QueryState) (cols : List (List Char)) : QueryState :=
  { q with selectCols := some cols }

/-- Translation of Queryable.Join: despite its name it calls
query.LeftJoin(goqu.T(table), goqu.On(conditions)) with the equality map
built from the onMap argument. -/
def Join (q : QueryState) (table : List Char) (onMap : List (List Char × List Char)) :
    QueryState :=
  { q with joins := q.joins ++ [⟨JoinKind.left, table, onMap⟩] }

/-- Translation of Queryable.LeftJoin: identical body to Join. -/
def LeftJoin (q : QueryState) (table : List Char) (onMap : List (List Char × List Char)) :
    QueryState :=
  { q with joins := q.joins ++ [⟨JoinKind.left, table, onMap⟩] }

/-- Translation of Queryable.RightJoin. -/
def RightJoin (q : QueryState) (table : List Char) (onMap : List (List Char × List Char)) :
    QueryState :=
  { q with joins := q.joins ++ [⟨JoinKind.right, table, onMap⟩] }

/-- Translation of Queryable.InnerJoin. -/
def InnerJoin (q : QueryState) (table : List Char) (onMap : List (List Char × List Char)) :
    QueryState :=
  { q with joins := q.joins ++ [⟨JoinKind.inner, table, onMap⟩] }

/-- Translation of Queryable.ToSQL: it renders the dataset and returns the
pair without assigning anything back to the builder, so the state comes back
unchanged alongside the rendered statement. -/
def ToSQL (q : QueryState) : QueryState × (List Char × List Int) := (q, renderQ q)

/-- Translation of Queryable.ensureSelectFields: render the current dataset,
and when the sql holds the two-space marker SELECT  FROM (the code's test
for an unspecified projection) and the entity type has db-tagged fields,
replace the projection with those fields.  entityFields embeds
getStructDBFields, the db-tag column list of the entity type.  Because the
renderer emits SELECT * FROM for a projection-less dataset, this marker
never occurs in what the builder renders. -/
def ensureSelectFields (entityFields : List (List Char)) (q : QueryState) : QueryState :=
  if containsSeq "SELECT  FROM".toList (renderQ q).1 then
    if entityFields.length > 0 then { q with selectCols := some entityFields } else q
  else q

/-- The dataset FirstOrDefault executes: ensureSelectFields, then Limit(1)
applied at render time. -/
def FirstOrDefaultExec (entityFields : List (List Char)) (q : QueryState) : QueryState :=
  Limit (ensureSelectFields entityFields q) 1

/-- The dataset FirstOrDefaultTx executes: identical to FirstOrDefault. -/
def FirstOrDefaultTxExec (entityFields : List (List Char)) (q : QueryState) : QueryState :=
  Limit (ensureSelectFields entityFields q) 1

/-- The dataset ToList executes: ensureSelectFields, then render. -/
def ToListExec (entityFields : List (List Char)) (q : QueryState) : QueryState :=
  ensureSelectFields entityFields q

/-- The dataset ToListTx executes. -/
def ToListTxExec (entityFields : List (List Char)) (q : QueryState) : QueryState :=
  ensureSelectFields entityFields q

/-- The dataset ToGroupedList executes. -/
def ToGroupedListExec (entityFields : List (List Char)) (q : QueryState) : QueryState :=
  ensureSelectFields entityFields q

/-- The dataset ToGroupedListTx executes. -/
def ToGroupedListTxExec (entityFields : List (List Char)) (q : QueryState) : QueryState :=
  ensureSelectFields entityFields q

/-- The dataset ToStruct executes: query.Limit(1).ToSQL() with no call to
ensureSelectFields anywhere in its body. -/
def ToStructExec (q : QueryState) : QueryState := Limit q 1

/-- The dataset ToStructTx executes: also without ensureSelectFields. -/
def ToStructTxExec (q : QueryState) : QueryState := Limit q 1

/-! ## OrderByRaw (queryable.go): Go string helpers over List Char -/

/-- The whitespace class of strings.TrimSpace and strings.Fields at the
character set the order specifications use. -/
def isSpaceChar (c : Char) : Bool := c = ' ' || c = '\t' || c = '\n' || c = '\r'

/-- Embedding of strings.TrimSpace. -/
def goTrimSpace (l : List Char) : List Char :=
  ((l.dropWhile isSpaceChar).reverse.dropWhile isSpaceChar).reverse

/-- Embedding of strings.Split(l, comma): comma-separated chunks, empty
chunks kept, one chunk when no comma occurs. -/
def splitOnComma : List Char → List (List Char)
  | [] => [[]]
  | c :: rest =>
    let r := splitOnComma rest
    if c = ',' then [] :: r
    else
      match r with
      | [] => [[c]]
      | h :: t => (c :: h) :: t

/-- Embedding of strings.Contains(l, comma). -/
def goContainsComma (l : List Char) : Bool := l.any (fun c => c = ',')

/-- Splitter underlying strings.Fields: cut at every space character. -/
def splitWhenSpace : List Char → List (List Char)
  | [] => [[]]
  | c :: rest =>
    let r := splitWhenSpace rest
    if isSpaceChar c then [] :: r
    else
      match r with
      | [] => [[c]]
      | h :: t => (c :: h) :: t

/-- Embedding of strings.Fields: maximal runs of non-space characters. -/
def goFields (l : List Char) : List (List Char) :=
  (splitWhenSpace l).filter (fun s => !s.isEmpty)

/-- Embedding of strings.ToUpper at the ASCII range the direction tokens
use. -/
def goToUpper (l : List Char) : List Char := l.map Char.toUpper

/-- The per-segment body of OrderByRaw once a segment is trimmed: fields[0]
is the column, the direction defaults to ASC and becomes the uppercased
second field when present, and only an exact DESC yields a descending
clause.  The [] branch of goFields is unreachable for the nonempty trimmed
segments the caller passes (Go would index fields[0]). -/
def goParseOrderPart (part : List Char) : Option OrderClause :=
  match goFields part with
  | [] => none
  | col :: rest =>
    let dir := match rest with
      | [] => "ASC".toList
      | d :: _ => goToUpper d
    if dir = "DESC".toList then some ⟨col, true⟩ else some ⟨col, false⟩

/-- The loop of OrderByRaw over the comma-separated parts: trim, skip empty
segments silently, parse the rest in order. -/
def orderByRawLoop : List (List Char) → List OrderClause
  | [] => []
  | part :: rest =>
    let p := goTrimSpace part
    if p.isEmpty then orderByRawLoop rest
    else
      match goParseOrderPart p with
      | none => orderByRawLoop rest
      | some cl => cl :: orderByRawLoop rest

/-- Translation of Queryable.OrderByRaw, reduced to the ordered clause list
it hands to query.Order: the multi-field branch when the input holds a
comma, otherwise the single-segment branch (unchanged builder, hence no
clause, for a blank input). -/
def OrderByRawClauses (column : List Char) : List OrderClause :=
  if goContainsComma column then orderByRawLoop (splitOnComma column)
  else
    let part := goTrimSpace column
    if part.isEmpty then []
    else
      match goParseOrderPart part with
      | none => []
      | some cl => [cl]

/-- The specification wording of one segment: a column optionally followed
by a direction token, ASC and DESC case-insensitive, ascending the default,
an empty segment skipped. -/
def specParseSegment (seg : List Char) : Option OrderClause :=
  let s := goTrimSpace seg
  if s.isEmpty then none
  else
    match goFields s with
    | [] => none
    | col :: rest =>
      some ⟨col, match rest with
                 | [] => false
                 | d :: _ => decide (goToUpper d = "DESC".toList)⟩

/-- The specification wording of OrderByRaw as a whole: split on commas and
parse every segment independently. -/
def specOrderByRawClauses (column : List Char) : List OrderClause :=
  (splitOnComma column).filterMap specParseSegment

/-! ## Terminal operations: error flow (queryable.go)

The renderer and the two sqlx entry points the terminal operations call
(Get and Select) are abstracted into a backend record so error propagation
can be stated for every outcome of the collaborators; rows are embedded as
List Int. -/

structure Backend where
  render : QueryState → Except GoErr (List Char × List Int)
  runSelect : List Char → List Int → Except GoErr (List (List Int))
  runGet : List Char → List Int → Except GoErr (List Int)

/-- The dataset Count renders: projection replaced by COUNT(*). -/
def CountExecState (q : QueryState) : QueryState :=
  Select q ["COUNT(*)".toList]

/-- The dataset Sum renders: the projection goqu.L(IFNULL(SUM(?), 0), field)
of queryable.go line 330. -/
def SumExecState (q : QueryState) (field : List Char) : QueryState :=
  Select q ["IFNULL(SUM(".toList ++ field ++ "), 0)".toList]

/-- The dataset SumTx renders: the bare projection goqu.SUM(field) of
queryable.go line 154, with no IFNULL around it. -/
def SumTxExecState (q : QueryState) (field : List Char) : QueryState :=
  Select q ["SUM(".toList ++ field ++ ")".toList]

/-- Translation of FirstOrDefault as an error flow: a render failure is
returned at once, otherwise the Get outcome is returned. -/
def FirstOrDefaultRun (b : Backend) (entityFields : List (List Char)) (q : QueryState) :
    Except GoErr (List Int) :=
  match b.render (FirstOrDefaultExec entityFields q) with
  | .error e => .error e
  | .ok (s, a) => b.runGet s a

/-- Translation of ToList as an error flow. -/
def ToListRun (b : Backend) (entityFields : List (List Char)) (q : QueryState) :
    Except GoErr (List (List Int)) :=
  match b.render (ToListExec entityFields q) with
  | .error e => .error e
  | .ok (s, a) => b.runSelect s a

/-- Translation of Count as an error flow. -/
def CountRun (b : Backend) (q : QueryState) : Except GoErr (List Int) :=
  match b.render (CountExecState q) with
  | .error e => .error e
  | .ok (s, a) => b.runGet s a

/-- Translation of Sum as an error flow. -/
def SumRun (b : Backend) (q : QueryState) (field : List Char) : Except GoErr (List Int) :=
  match b.render (SumExecState q field) with
  | .error e => .error e
  | .ok (s, a) => b.runGet s a

/-- Translation of ToStruct as an error flow. -/
def ToStructRun (b : Backend) (q : QueryState) : Except GoErr (List Int) :=
  match b.render (ToStructExec q) with
  | .error e => .error e
  | .ok (s, a) => b.runGet s a

/-- Append a row under its key, keeping first-seen key order: the map and
append the Go loop performs. -/
def insertLookup (k : Int) (row : List Int) :
    List (Int × List (List Int)) → List (Int × List (List Int))
  | [] => [(k, [row])]
  | (k2, rs) :: t =>
    if k2 = k then (k2, rs ++ [row]) :: t else (k2, rs) :: insertLookup k row t

/-- The client-side partition ToLookup builds from the materialized rows. -/
def buildLookup (key : List Int → Int) (rows : List (List Int)) :
    List (Int × List (List Int)) :=
  rows.foldl (fun acc r => insertLookup (key r) r acc) []

/-- Translation of ToLookup: its signature has no error result, and both the
render failure and the Select failure branches return nil, dropping the
error value. -/
def ToLookupRun (b : Backend) (q : QueryState) (key : List Int → Int) :
    Option (List (Int × List (List Int))) :=
  match b.render q with
  | .error _ => none
  | .ok (s, a) =>
    match b.runSelect s a with
    | .error _ => none
    | .ok rows => some (buildLookup key rows)

/-- Translation of ToLookupTx: same body as ToLookup (the context changes
only which sqlx entry point runs). -/
def ToLookupTxRun (b : Backend) (q : QueryState) (key : List Int → Int) :
    Option (List (Int × List (List Int))) :=
  match b.render q with
  | .error _ => none
  | .ok (s, a) =>
    match b.runSelect s a with
    | .error _ => none
    | .ok rows => some (buildLookup key rows)

/-! ## Sum and SumTx: value semantics of the aggregate cell

vals is the list of non-null field values of the rows the query matches;
the SQL SUM aggregate is NULL exactly on the empty set, IFNULL replaces
NULL by its default, and scanning a NULL cell into the non-nullable float64
destination fails. -/

def sqlSUM (vals : List Int) : Option Int :=
  match vals with
  | [] => none
  | _ => some vals.sum

def sqlIFNULL (x : Option Int) (dflt : Int) : Int := x.getD dflt

def scanNullableNumeric : Option Int → Except GoErr Int
  | none => .error .scanNull
  | some v => .ok v

/-- The value Sum hands its caller: the cell of IFNULL(SUM(field), 0)
scanned into the float64 destination. -/
def SumValue (vals : List Int) : Except GoErr Int :=
  scanNullableNumeric (some (sqlIFNULL (sqlSUM vals) 0))

/-- The value SumTx hands its caller: the cell of the bare SUM(field)
scanned into the float64 destination. -/
def SumTxValue (vals : List Int) : Except GoErr Int :=
  scanNullableNumeric (sqlSUM vals)

/-! ## ToPagedList and ToPagedListWithTotal: relational semantics and
statement traces (queryable.go)

Rows are identifiers in table order; a query state is the conjunction of
accumulated predicates plus the OFFSET/LIMIT window.  The builder is
mutated in place by Where, Skip and Take, so a later Count on the same
receiver renders with everything accumulated so far.  SQL applies LIMIT and
OFFSET after aggregation, so a windowed COUNT(*) statement windows its
single aggregate row; sqlx Get then fails with ErrNoRows when that window
is empty. -/

inductive StmtKind where
  | countQuery
  | pageQuery
deriving DecidableEq, Repr

structure DQuery where
  cond : Nat → Bool
  offset : Option Nat
  limit : Option Nat

/-- Where on the shared builder: conjoins the predicate in place. -/
def DWhere (q : DQuery) (p : Nat → Bool) : DQuery :=
  { q with cond := fun r => q.cond r && p r }

/-- Skip on the shared builder. -/
def DSkip (q : DQuery) (n : Nat) : DQuery := { q with offset := some n }

/-- Take on the shared builder. -/
def DTake (q : DQuery) (n : Nat) : DQuery := { q with limit := some n }

/-- OFFSET then LIMIT over an already-computed result list. -/
def applyWindow (l : List Nat) (offset limit : Option Nat) : List Nat :=
  let l1 := match offset with
            | none => l
            | some n => l.drop n
  match limit with
  | none => l1
  | some n => l1.take n

/-- Rows a plain (entity) select returns: filter, then window. -/
def execSelectRows (table : List Nat) (q : DQuery) : List Nat :=
  applyWindow (table.filter q.cond) q.offset q.limit

/-- What Get sees for SELECT COUNT(*) rendered from q: the one aggregate row
holds the count of the WHERE-filtered rows, the window applies to that
single-row result, and an empty window is ErrNoRows. -/
def execCountGet (table : List Nat) (q : DQuery) : Except GoErr Nat :=
  match applyWindow [(table.filter q.cond).length] q.offset q.limit with
  | [] => .error .errNoRows
  | n :: _ => .ok n

structure DPageResult where
  items : List Nat
  total : Nat
  page : Nat
  pageSize : Nat
deriving DecidableEq, Repr

/-- Translation of ToPagedList: offset := (page-1)*size; the chain
q.Where(condition).Skip(offset).Take(size) mutates the receiver before
ToList runs the page query; then q.Count() runs on that same mutated
receiver, so the count statement carries the condition and the window.  The
first component is the trace of issued statements in order. -/
def ToPagedListRun (table : List Nat) (q : DQuery) (page size : Nat)
    (condition : Nat → Bool) : List StmtKind × Except GoErr DPageResult :=
  let offset := (page - 1) * size
  let q1 := DTake (DSkip (DWhere q condition) offset) size
  let items := execSelectRows table q1
  match execCountGet table q1 with
  | .error e => ([.pageQuery, .countQuery], .error e)
  | .ok total => ([.pageQuery, .countQuery], .ok ⟨items, total, page, size⟩)

/-- Translation of ToPagedListWithTotal: the count runs first, on the
builder holding only the conjoined condition; the page query runs second,
after Where (again), Skip and Take mutate the builder further.  On a count
failure the page statement is never issued. -/
def ToPagedListWithTotalRun (table : List Nat) (q : DQuery) (page size : Nat)
    (condition : Nat → Bool) : List StmtKind × Except GoErr (List Nat × Nat) :=
  let q1 := DWhere q condition
  match execCountGet table q1 with
  | .error e => ([.countQuery], .error e)
  | .ok total =>
    let offset := (page - 1) * size
    let q2 := DTake (DSkip (DWhere q1 condition) offset) size
    ([.countQuery, .pageQuery], .ok (execSelectRows table q2, total))

/-! ## Concrete instances used by witnesses and counterexamples -/

/-- A fresh builder over the users table, as Repository.Query hands it out:
no projection, no predicates, no window. -/
def qUsers : QueryState := ⟨"users".toList, none, [], [], [], none, none⟩

/-- The db-tag column list of the example User entity. -/
def userFields : List (List Char) := ["id".toList, "username".toList, "age".toList]

/-- A backend whose render succeeds and whose statement execution fails with
driver failure A. -/
def bFailSelectA : Backend :=
  ⟨fun _ => .ok ([], []),
   fun _ _ => .error (.mk "driver failure A"),
   fun _ _ => .error (.mk "driver failure A")⟩

/-- A backend whose render succeeds and whose statement execution fails with
driver failure B. -/
def bFailSelectB : Backend :=
  ⟨fun _ => .ok ([], []),
   fun _ _ => .error (.mk "driver failure B"),
   fun _ _ => .error (.mk "driver failure B")⟩

/-- Key selector grouping a row by its first column. -/
def headKey : List Int → Int := fun r => r.headD 0

/-- A table of 25 rows in table order. -/
def table25 : List Nat := List.range 25

/-- The predicate matching every row. -/
def allRows : Nat → Bool := fun _ => true

/-! ## Theorems -/

theorem leadsWith_self_append (p rest : List Char) : leadsWith p (p ++ rest) = true := by
  induction p with
  | nil => rfl
  | cons a ps ih => simp [leadsWith, ih]

/-- C2: the safe batch size is exactly the floor of (paramBudget times 0.8)
over fieldsPerRow, the effective batch size is the minimum of the configured
and the safe size, and the three published values hold exactly as integer
floor divisions. -/
theorem claim_C2_safeBatchSize (fieldCount maxParams : Nat) (_h : 0 < fieldCount) :
    calculateSafeBatchSize fieldCount maxParams = specSafeBatchSize fieldCount maxParams
    ∧ (∀ c s : Nat, effectiveBatchSize c s = min c s)
    ∧ calculateSafeBatchSize 10 16384 = 1310
    ∧ calculateSafeBatchSize 20 16384 = 655
    ∧ calculateSafeBatchSize 5 10000 = 1600 := by
  refine ⟨?_, ?_, by decide, by decide, by decide⟩
  · unfold calculateSafeBatchSize specSafeBatchSize
    rw [Nat.div_div_eq_div_mul]
    have h1 : maxParams * 80 = maxParams * 8 * 10 := by ring
    have h2 : 100 * fieldCount = 10 * fieldCount * 10 := by ring
    rw [h1, h2, Nat.mul_div_mul_right]
    omega
  · intro c s
    unfold effectiveBatchSize
    split <;> omega

theorem claim_C2_safeBatchSize_witness :
    calculateSafeBatchSize 10 16384 = specSafeBatchSize 10 16384
    ∧ calculateSafeBatchSize 10 16384 = 1310 := by
  have h := claim_C2_safeBatchSize 10 16384 (by decide)
  exact ⟨h.1, h.2.2.1⟩

/-- C1: when Begin succeeds, RunInTransaction begins the transaction and the
trace and outcome follow fn: an error from fn triggers Rollback (never
Commit) and returns the original error, wrapped together with the rollback
error when rollback itself fails; a nil from fn triggers Commit and returns
the commit outcome; a panic in fn still triggers Rollback and then the panic
propagates to the caller. -/
theorem claim_C1_RunInTransaction (env : TxEnv) (fn : FnBehavior)
    (h : env.beginErr = none) :
    TxEvent.beganTx ∈ (RunInTransaction env fn).1
    ∧ (∀ e : GoErr, fn = .ret (some e) →
        TxEvent.rolledBack ∈ (RunInTransaction env fn).1
        ∧ TxEvent.committed ∉ (RunInTransaction env fn).1
        ∧ (RunInTransaction env fn).2 =
            .ret (some (match env.rollbackErr with
                        | none => e
                        | some re => .rollbackFailWrap e re)))
    ∧ (fn = .ret none →
        (RunInTransaction env fn).1 = [.beganTx, .committed]
        ∧ (RunInTransaction env fn).2 = .ret env.commitErr)
    ∧ (∀ p : String, fn = .panics p →
        (RunInTransaction env fn).1 = [.beganTx, .rolledBack]
        ∧ (RunInTransaction env fn).2 = .panicked p) := by
  rcases env with ⟨be, re, ce⟩
  simp only at h
  subst h
  cases fn with
  | ret e => cases e <;> cases re <;> simp [RunInTransaction]
  | panics p => simp [RunInTransaction]

theorem claim_C1_RunInTransaction_witness :
    (RunInTransaction ⟨none, none, none⟩ (.panics "boom")).1 = [.beganTx, .rolledBack]
    ∧ (RunInTransaction ⟨none, none, none⟩ (.panics "boom")).2 = .panicked "boom" := by
  have h := claim_C1_RunInTransaction ⟨none, none, none⟩ (.panics "boom") rfl
  exact h.2.2.2 "boom" rfl

/-- C9: ToSQL renders without assigning to the builder, so it returns the
state unchanged, and a second call on that state yields the identical
(sql, args) pair. -/
theorem claim_C9_ToSQL_idempotent (q : QueryState) :
    (ToSQL q).1 = q ∧ (ToSQL ((ToSQL q).1)).2 = (ToSQL q).2 :=
  ⟨rfl, rfl⟩

/-- C10: Join appends exactly the same join clause as LeftJoin, that clause
renders as a LEFT JOIN with the equality conditions of the on-mapping, and
the state Join produces always differs from the state InnerJoin produces. -/
theorem claim_C10_Join_is_LeftJoin (q : QueryState) (t : List Char)
    (onMap : List (List Char × List Char)) :
    Join q t onMap = LeftJoin q t onMap
    ∧ leadsWith "LEFT JOIN ".toList (renderJoin ⟨JoinKind.left, t, onMap⟩) = true
    ∧ Join q t onMap ≠ InnerJoin q t onMap := by
  refine ⟨rfl, ?_, ?_⟩
  · show leadsWith "LEFT JOIN ".toList
      ("LEFT JOIN ".toList ++ t ++ " ON ".toList ++ renderOnPairs onMap) = true
    rw [List.append_assoc, List.append_assoc]
    exact leadsWith_self_append _ _
  · intro hcontra
    have hj := congrArg QueryState.joins hcontra
    simp [Join, InnerJoin] at hj

/-- C3 (code bug): a fresh builder over users with no explicit projection
renders SELECT * FROM users, so the two-space marker SELECT  FROM that
ensureSelectFields tests for does not occur, ensureSelectFields returns the
builder unchanged, and none of the entity-returning terminal operations
injects the nonempty persisted-column list: FirstOrDefault, ToList,
ToGroupedList (and their context variants, whose bodies are identical) as
well as ToStruct all execute with the projection still unset, selecting all
columns blindly against the claim and the auto-projection invariant of the
specification. -/
theorem claim_C3_noAutoProjection :
    (renderQ qUsers).1 = "SELECT * FROM users".toList
    ∧ containsSeq "SELECT  FROM".toList (renderQ qUsers).1 = false
    ∧ ensureSelectFields userFields qUsers = qUsers
    ∧ userFields.length > 0
    ∧ (ToListExec userFields qUsers).selectCols = none
    ∧ (ToListTxExec userFields qUsers).selectCols = none
    ∧ (FirstOrDefaultExec userFields qUsers).selectCols = none
    ∧ (FirstOrDefaultTxExec userFields qUsers).selectCols = none
    ∧ (ToGroupedListExec userFields qUsers).selectCols = none
    ∧ (ToGroupedListTxExec userFields qUsers).selectCols = none
    ∧ (ToStructExec qUsers).selectCols = none
    ∧ (ToStructTxExec qUsers).selectCols = none := by
  decide

/-- C4 amended: the modelled terminal operations other than ToLookup and
ToLookupTx return every rendering failure and every execution failure to the
caller unchanged; ToLookup and ToLookupTx, whose signatures carry no error
result, return nil in both failure branches, discarding the error. -/
theorem claim_C4_errorPropagation (b : Backend) (entityFields : List (List Char))
    (q : QueryState) (field : List Char) (key : List Int → Int) (e : GoErr) :
    (b.render (FirstOrDefaultExec entityFields q) = .error e →
      FirstOrDefaultRun b entityFields q = .error e)
    ∧ (∀ s a, b.render (FirstOrDefaultExec entityFields q) = .ok (s, a) →
        b.runGet s a = .error e → FirstOrDefaultRun b entityFields q = .error e)
    ∧ (b.render (ToListExec entityFields q) = .error e →
        ToListRun b entityFields q = .error e)
    ∧ (∀ s a, b.render (ToListExec entityFields q) = .ok (s, a) →
        b.runSelect s a = .error e → ToListRun b entityFields q = .error e)
    ∧ (b.render (CountExecState q) = .error e → CountRun b q = .error e)
    ∧ (∀ s a, b.render (CountExecState q) = .ok (s, a) → b.runGet s a = .error e →
        CountRun b q = .error e)
    ∧ (b.render (SumExecState q field) = .error e → SumRun b q field = .error e)
    ∧ (∀ s a, b.render (SumExecState q field) = .ok (s, a) → b.runGet s a = .error e →
        SumRun b q field = .error e)
    ∧ (b.render (ToStructExec q) = .error e → ToStructRun b q = .error e)
    ∧ (∀ s a, b.render (ToStructExec q) = .ok (s, a) → b.runGet s a = .error e →
        ToStructRun b q = .error e)
    ∧ (b.render q = .error e → ToLookupRun b q key = none)
    ∧ (∀ s a, b.render q = .ok (s, a) → b.runSelect s a = .error e →
        ToLookupRun b q key = none)
    ∧ (b.render q = .error e → ToLookupTxRun b q key = none)
    ∧ (∀ s a, b.render q = .ok (s, a) → b.runSelect s a = .error e →
        ToLookupTxRun b q key = none) := by
  refine ⟨fun h => ?_, fun s a h1 h2 => ?_, fun h => ?_, fun s a h1 h2 => ?_,
    fun h => ?_, fun s a h1 h2 => ?_, fun h => ?_, fun s a h1 h2 => ?_,
    fun h => ?_, fun s a h1 h2 => ?_, fun h => ?_, fun s a h1 h2 => ?_,
    fun h => ?_, fun s a h1 h2 => ?_⟩ <;>
  simp [FirstOrDefaultRun, ToListRun, CountRun, SumRun, ToStructRun,
    ToLookupRun, ToLookupTxRun, *]

/-- C4 counterexample: two backends whose statement execution fails with two
different driver errors: ToLookup and ToLookupTx return nil for both, so the
error value is discarded and the caller cannot recover it, contradicting the
claim that no terminal operation suppresses an error. -/
theorem claim_C4_counterexample :
    ToLookupRun bFailSelectA qUsers headKey = none
    ∧ ToLookupRun bFailSelectB qUsers headKey = none
    ∧ ToLookupTxRun bFailSelectA qUsers headKey = none
    ∧ bFailSelectA.runSelect [] [] = .error (.mk "driver failure A")
    ∧ bFailSelectB.runSelect [] [] = .error (.mk "driver failure B") :=
  ⟨rfl, rfl, rfl, rfl, rfl⟩

/-- C5 amended: Sum selects IFNULL(SUM(field), 0), so it returns the plain
sum of the matched values and in particular 0 on the empty result set; SumTx
selects the bare SUM(field) and on the empty result set the NULL aggregate
fails the float64 scan instead of coalescing to 0. -/
theorem claim_C5_Sum_coalesces (vals : List Int) :
    SumValue vals = .ok vals.sum
    ∧ SumValue [] = .ok 0
    ∧ SumTxValue [] = .error .scanNull := by
  refine ⟨?_, rfl, rfl⟩
  cases vals <;> simp [SumValue, scanNullableNumeric, sqlIFNULL, sqlSUM]

/-- C5 counterexample: on the empty result set SumTx surfaces the NULL-scan
failure, not the 0 the claim promises for both variants; Sum on the same
input does return 0. -/
theorem claim_C5_counterexample :
    SumTxValue [] = .error .scanNull ∧ SumValue [] = .ok 0 :=
  ⟨rfl, rfl⟩

/-- C6: evaluating ToPagedList at page 2, size 10 over 25 matching rows: the
page query correctly selects rows 11 through 20, but the count query is
rendered from the same mutated builder and inherits LIMIT 10 OFFSET 10, so
its single aggregate row is windowed away and the call returns ErrNoRows
instead of the claimed 10 items with Total 25.  ToPagedListWithTotal on the
same input returns exactly the claimed result, which shows the intended
behavior the slip departs from. -/
theorem claim_C6_ToPagedList_page2 :
    ToPagedListRun table25 ⟨allRows, none, none⟩ 2 10 allRows
      = ([.pageQuery, .countQuery], .error .errNoRows)
    ∧ execSelectRows table25 (DTake (DSkip (DWhere ⟨allRows, none, none⟩ allRows) 10) 10)
      = [10, 11, 12, 13, 14, 15, 16, 17, 18, 19]
    ∧ ToPagedListWithTotalRun table25 ⟨allRows, none, none⟩ 2 10 allRows
      = ([.countQuery, .pageQuery],
         .ok ([10, 11, 12, 13, 14, 15, 16, 17, 18, 19], 25)) :=
  ⟨rfl, rfl, rfl⟩

/-- C8 amended: ToPagedListWithTotal issues exactly two statements, the
counting query first and the windowed page query second, whenever it
succeeds; ToPagedList also issues exactly two statements but in the opposite
order, the windowed page query first and the counting query second. -/
theorem claim_C8_statementOrder (table : List Nat) (q : DQuery) (page size : Nat)
    (condition : Nat → Bool) :
    ((ToPagedListWithTotalRun table q page size condition).2.isOk = true →
      (ToPagedListWithTotalRun table q page size condition).1
        = [.countQuery, .pageQuery])
    ∧ (ToPagedListRun table q page size condition).1 = [.pageQuery, .countQuery] := by
  constructor
  · intro h
    simp only [ToPagedListWithTotalRun] at h ⊢
    cases hc : execCountGet table (DWhere q condition) with
    | error e => simp [hc, Except.isOk, Except.toBool] at h
    | ok total => simp [hc]
  · simp only [ToPagedListRun]
    cases hc : execCountGet table
        (DTake (DSkip (DWhere q condition) ((page - 1) * size)) size) <;> simp [hc]

/-- C8 counterexample: at a concrete input on which both statements are
issued and the call succeeds, the trace of ToPagedList is page query first,
count query second, not the count-then-page order the claim states. -/
theorem claim_C8_counterexample :
    (ToPagedListRun table25 ⟨allRows, none, none⟩ 1 10 allRows).1
      = [StmtKind.pageQuery, StmtKind.countQuery]
    ∧ (ToPagedListRun table25 ⟨allRows, none, none⟩ 1 10 allRows).2
      = .ok ⟨[0, 1, 2, 3, 4, 5, 6, 7, 8, 9], 25, 1, 10⟩ :=
  ⟨rfl, rfl⟩

theorem specParseSegment_eq (part : List Char) :
    specParseSegment part =
      (if (goTrimSpace part).isEmpty then none
       else goParseOrderPart (goTrimSpace part)) := by
  unfold specParseSegment goParseOrderPart
  cases he : (goTrimSpace part).isEmpty
  · simp only [he, Bool.false_eq_true, if_false]
    cases hf : goFields (goTrimSpace part) with
    | nil => rfl
    | cons col rest =>
      cases rest with
      | nil => simp
      | cons d ds =>
        by_cases hd : goToUpper d = "DESC".toList
        · simp [hd]
        · have hd2 : ¬goToUpper d = ['D', 'E', 'S', 'C'] := hd
          simp [hd2]
  · simp [he]

theorem orderByRawLoop_eq (parts : List (List Char)) :
    orderByRawLoop parts = parts.filterMap specParseSegment := by
  induction parts with
  | nil => rfl
  | cons part rest ih =>
    simp only [orderByRawLoop, List.filterMap_cons, specParseSegment_eq]
    cases he : (goTrimSpace part).isEmpty
    · cases hp : goParseOrderPart (goTrimSpace part) <;> simp [he, hp, ih]
    · simp [he, ih]

theorem splitOnComma_no_comma (l : List Char) (h : goContainsComma l = false) :
    splitOnComma l = [l] := by
  induction l with
  | nil => rfl
  | cons c rest ih =>
    unfold goContainsComma at h
    simp only [List.any_cons, Bool.or_eq_false_iff, decide_eq_false_iff_not] at h
    obtain ⟨h1, h2⟩ := h
    have hr : splitOnComma rest = [rest] := ih (by simpa [goContainsComma] using h2)
    simp [splitOnComma, hr, h1]

/-- C7: OrderByRaw agrees, on every input, with the specification reading of
the grammar: split on commas, trim each segment, skip the empty segments
silently, take the first whitespace field as the column and the uppercased
second field as the direction with DESC descending and anything else
(including absence) ascending; in particular the given two-column example
parses into age descending then id ascending. -/
theorem claim_C7_OrderByRaw :
    (∀ column : List Char, OrderByRawClauses column = specOrderByRawClauses column)
    ∧ OrderByRawClauses "age desc, id asc".toList
      = [⟨"age".toList, true⟩, ⟨"id".toList, false⟩] := by
  constructor
  · intro column
    unfold OrderByRawClauses specOrderByRawClauses
    cases hc : goContainsComma column
    · simp only [hc, Bool.false_eq_true, if_false]
      rw [splitOnComma_no_comma column hc]
      simp only [List.filterMap_cons, List.filterMap_nil, specParseSegment_eq]
      cases he : (goTrimSpace column).isEmpty
      · cases hp : goParseOrderPart (goTrimSpace column) <;> simp [he, hp]
      · simp [he]
    · simp [hc, orderByRawLoop_eq]
  · decide

end GoquLinq
